import Mathlib

/-!
Shallow embedding of `src/reddit_subreddit_scraper.py` (the scrape-and-normalize
pipeline) and proofs about the claims of the specification.

Modelling conventions:
* Python strings are modelled as `List Char` (with `String` wrappers at the
  public boundary, mirroring the Python function signatures).
* Python `datetime` values are modelled as rational numbers of seconds on a
  single naive (offset-free) timeline.  `timedelta` construction from a float
  amount is modelled faithfully: the duration is quantized to whole
  microseconds with round-half-even (`tdMicros`), and the ±999999999-day
  bound raises `OverflowError` (`tdSub`).  CPython quantizes via double
  arithmetic on per-field fractional parts; the model applies one exact
  rational rounding of the total, which can differ from the double
  computation only within a microsecond of a rounding boundary — the strict
  statement proved about the result therefore keeps a one-microsecond margin.
  The `OverflowError` that `datetime - timedelta` itself can raise when the
  result leaves the calendar range depends on the wall-clock value of
  `utcnow`, which the abstract reference-time parameter leaves open; it is
  not modelled.
* Python `float` values produced by `float(str)` are modelled exactly by
  `PyFloatVal`: either a finite rational, an infinity, or a NaN.  Finite
  decimal literals are modelled as exact rationals rather than IEEE-754
  doubles; this does not affect any claim settled here (the concrete inputs
  used below round to the same integers in both semantics, and the sign of a
  parsed value is unaffected by IEEE rounding).  Digit-group underscores and
  non-ASCII digits/whitespace accepted by CPython are not modelled.
* Exceptions are modelled by explicit result constructors (`overflow`,
  `raised`, `errored`), reserved for the paths where the Python code can raise
  an exception that escapes the function being modelled.
* Library collaborators with no logic in this repository (`asyncpg`,
  `datetime.fromisoformat`, `random`) are abstracted: the database is a list
  of rows with the `INSERT ... ON CONFLICT (post_id) DO NOTHING` statement
  translated directly, ISO timestamp parsing is an oracle parameter, and the
  results of `random.randint` / `random.sample` are parameters constrained by
  those functions' documented contracts.
-/

/- Batteries seals the arithmetic of `Rat` behind `irreducible`; re-open it so
that concrete runs of the embedded functions can be settled by `decide`. -/
attribute [local semireducible] Rat.add Rat.mul Rat.sub Rat.inv Rat.ofScientific

/-- ASCII whitespace recognized by Python `str.strip()` / `str.split()`
(restricted to the ASCII range: space, tab, LF, CR, VT, FF). -/
def isSpace (c : Char) : Bool :=
  c = ' ' ∨ c = '\t' ∨ c = '\n' ∨ c = '\r' ∨ c = '\x0b' ∨ c = '\x0c'

/-- Python `str.strip()`: drop whitespace from both ends. -/
def stripList (l : List Char) : List Char :=
  ((l.dropWhile isSpace).reverse.dropWhile isSpace).reverse

/-- Python `str.lower()` (ASCII model). -/
def pyLower (l : List Char) : List Char := l.map Char.toLower

/-- Accumulator-passing helper of `splitWs`. -/
def splitWsAux (cur : List Char) : List Char → List (List Char)
  | [] => if cur = [] then [] else [cur.reverse]
  | c :: rest =>
    if isSpace c then
      if cur = [] then splitWsAux [] rest else cur.reverse :: splitWsAux [] rest
    else splitWsAux (c :: cur) rest

/-- Python `str.split()` with no separator: split on runs of whitespace,
discarding empty pieces. -/
def splitWs (l : List Char) : List (List Char) := splitWsAux [] l

/-- Fuel-indexed core of `replaceSub` (fuel makes the recursion structural;
`fuel = s.length` suffices for every nonempty pattern). -/
def replaceSubAux (pat rep : List Char) : Nat → List Char → List Char
  | 0, s => s
  | _ + 1, [] => []
  | fuel + 1, c :: rest =>
    if pat.isPrefixOf (c :: rest) then
      rep ++ replaceSubAux pat rep fuel ((c :: rest).drop pat.length)
    else c :: replaceSubAux pat rep fuel rest

/-- Python `str.replace(pat, rep)`: replace non-overlapping occurrences left
to right (used here only with nonempty `pat`). -/
def replaceSub (pat rep s : List Char) : List Char := replaceSubAux pat rep s.length s

/-- Python `str.replace(pat, "")`. -/
def removeSub (pat s : List Char) : List Char := replaceSub pat [] s

/-- Python `pat in s` substring test. -/
def containsSub (pat : List Char) : List Char → Bool
  | [] => pat.isPrefixOf []
  | c :: rest => pat.isPrefixOf (c :: rest) || containsSub pat rest

/-- Split at the first occurrence of character `c`: returns the prefix before
it and, when present, the remainder after it. -/
def splitAtChar (c : Char) : List Char → List Char × Option (List Char)
  | [] => ([], none)
  | x :: xs =>
    if x = c then ([], some xs)
    else
      let r := splitAtChar c xs
      (x :: r.1, r.2)

/-- Are all characters ASCII decimal digits? -/
def allDigits (l : List Char) : Bool := l.all Char.isDigit

/-- Value of a (nonempty) ASCII digit string. -/
def digitsToNat (l : List Char) : Nat := l.foldl (fun a c => a * 10 + (c.toNat - 48)) 0

/-- The value classes a Python `float(str)` call can produce. -/
inductive PyFloatVal where
  | finite (q : ℚ)
  | inf
  | ninf
  | nan
deriving DecidableEq

/-- Strip one leading sign: returns (is-negative, rest). -/
def splitSign : List Char → Bool × List Char
  | [] => (false, [])
  | c :: r =>
    if c = '+' then (false, r)
    else if c = '-' then (true, r)
    else (false, c :: r)

/-- Mantissa of a decimal literal: digits with an optional single point,
at least one digit overall. -/
def parseMantissa (l : List Char) : Option ℚ :=
  match splitAtChar '.' l with
  | (ip, none) =>
    if ip ≠ [] ∧ allDigits ip then some ((digitsToNat ip : ℚ)) else none
  | (ip, some fp) =>
    if (ip ≠ [] ∨ fp ≠ []) ∧ allDigits ip ∧ allDigits fp then
      some ((digitsToNat ip : ℚ) + (digitsToNat fp : ℚ) / (10 : ℚ) ^ fp.length)
    else none

/-- Exponent part of a decimal literal: optional sign, nonempty digits. -/
def parseExp (l : List Char) : Option ℤ :=
  match l with
  | '+' :: r => if r ≠ [] ∧ allDigits r then some ((digitsToNat r : ℤ)) else none
  | '-' :: r => if r ≠ [] ∧ allDigits r then some (-(digitsToNat r : ℤ)) else none
  | r => if r ≠ [] ∧ allDigits r then some ((digitsToNat r : ℤ)) else none

/-- Model of Python `float(str)`: surrounding whitespace allowed, optional
sign, then (case-insensitively) `inf`/`infinity`, `nan`, or a decimal literal
with optional exponent.  `none` models `ValueError`.  (Lowercasing the body is
behaviorally equivalent to CPython's case-insensitive keyword/exponent
matching, since digits, signs and the point are unaffected.) -/
def pyFloatCore (neg : Bool) (body : List Char) : Option PyFloatVal :=
  if body = "inf".data ∨ body = "infinity".data then
    some (if neg then .ninf else .inf)
  else if body = "nan".data then some .nan
  else
    match splitAtChar 'e' body with
    | (m, none) => (parseMantissa m).map fun q => .finite (if neg then -q else q)
    | (m, some es) =>
      match parseMantissa m, parseExp es with
      | some qm, some ex => some (.finite ((if neg then -qm else qm) * (10 : ℚ) ^ ex))
      | _, _ => none

/-- See the doc comment above `pyFloatCore`: entry point of the `float(str)`
model. -/
def pyFloatParse (l : List Char) : Option PyFloatVal :=
  pyFloatCore (splitSign (pyLower (stripList l))).1 (splitSign (pyLower (stripList l))).2

/-- Python `int(x)` on a finite float value: truncation toward zero. -/
def pyTrunc (q : ℚ) : ℤ := q.num.tdiv q.den

/-- Result of `parse_score_text`: a returned integer, or the uncaught
`OverflowError` raised by `int()` on an infinite value. -/
inductive ScoreResult where
  | ok (n : ℤ)
  | overflow
deriving DecidableEq

/-- The cleaning pipeline of `parse_score_text` (lines 73-74):
`strip().lower()`, remove `"points"`, `"point"`, `"votes"`, `"vote"`, strip. -/
def cleanScoreText (l : List Char) : List Char :=
  stripList
    (removeSub "vote".data
      (removeSub "votes".data
        (removeSub "point".data
          (removeSub "points".data (pyLower (stripList l))))))

/-- `parse_score_text` (lines 72-85) on a character list.  The `try` block
catches only `ValueError` (unparseable text, `int(nan)`); `int(±inf)` raises
`OverflowError`, modelled by `.overflow`. -/
def scoreOfParsed (v : Option PyFloatVal) (mult : ℚ) : ScoreResult :=
  match v with
  | some (.finite q) => .ok (pyTrunc (q * mult))
  | some .inf => .overflow
  | some .ninf => .overflow
  | some .nan => .ok 0
  | none => .ok 0

/-- See the doc comment above `scoreOfParsed`: after cleaning, the `"k"`
suffix selects the multiplier, and `float`/`int` produce the result. -/
def parseScoreList (l : List Char) : ScoreResult :=
  if cleanScoreText l = [] ∨ cleanScoreText l = ['•'] then .ok 0
  else if (cleanScoreText l).getLast? = some 'k' then
    scoreOfParsed (pyFloatParse (cleanScoreText l).dropLast) 1000
  else scoreOfParsed (pyFloatParse (cleanScoreText l)) 1

/-- `parse_score_text` (lines 72-85). -/
def parse_score_text (s : String) : ScoreResult := parseScoreList s.data

/-- Result of `parse_age_text`: `absent` models returning `None`, `time t`
models returning a datetime, `raised` models the uncaught exception raised by
`timedelta(...)` on an infinite or NaN amount. -/
inductive AgeResult where
  | raised
  | absent
  | time (t : ℚ)
deriving DecidableEq

/-- The stripped-and-lowercased text `parse_age_text` works on (line 89). -/
def ageTextOf (l : List Char) : List Char := pyLower (stripList l)

/-- The magnitude of the first token (lines 99-103): `"a"`/`"an"` mean 1,
anything else goes through `float()`. -/
def tokenAmount (p : List Char) : Option PyFloatVal :=
  if p = "a".data ∨ p = "an".data then some (.finite 1) else pyFloatParse p

/-- The unit dispatch of `parse_age_text` (lines 107-114), as seconds per
unit: substring `"min"` → minutes, substring `"hour"` or exactly `"h"` →
hours, substring `"sec"` or exactly `"s"` → seconds, else `None`. -/
def unitSeconds (u : List Char) : Option ℚ :=
  if containsSub "min".data u then some 60
  else if containsSub "hour".data u || u = "h".data then some 3600
  else if containsSub "sec".data u || u = "s".data then some 1
  else none

/-- The unit token (line 106): `parts[1]` when present, else `""`. -/
def unitToken : List (List Char) → List Char
  | [] => []
  | u :: _ => u

/-- Python's `round()`: nearest integer, ties to even (used by `timedelta`
on its fractional-microsecond remainder). -/
def roundHalfEven (q : ℚ) : ℤ :=
  if q - Rat.floor q < 1/2 then Rat.floor q
  else if (1 : ℚ)/2 < q - Rat.floor q then Rat.floor q + 1
  else if Rat.floor q % 2 = 0 then Rat.floor q else Rat.floor q + 1

/-- Whole microseconds of a `timedelta` built from `secs` seconds:
`timedelta` stores whole microseconds only, rounding the fractional
remainder half to even — `round(secs * 10^6)`.  (A sub-half-microsecond
amount therefore quantizes to `timedelta(0)`.) -/
def tdMicros (secs : ℚ) : ℤ := roundHalfEven (secs * 1000000)

/-- `now - timedelta(...)` (line 115) for a finite amount of `secs` seconds:
`timedelta` raises `OverflowError` when the normalized day count (floor
division of the microseconds by a day) leaves `[-999999999, 999999999]`;
otherwise the result is `now` minus the quantized duration. -/
def tdSub (now secs : ℚ) : AgeResult :=
  if (tdMicros secs).fdiv 86400000000 < -999999999 ∨
      999999999 < (tdMicros secs).fdiv 86400000000 then .raised
  else .time (now - (tdMicros secs : ℚ) / 1000000)

/-- Lines 106-115 given the parsed magnitude and the remaining tokens:
dispatch on the unit, then build `now - delta` via `tdSub` — or raise inside
`timedelta` when the magnitude is not finite (`timedelta(minutes=inf)` and
`timedelta(seconds=nan)` raise, uncaught). -/
def ageWithAmount (now : ℚ) (amt : PyFloatVal) (rest : List (List Char)) : AgeResult :=
  match unitSeconds (unitToken rest) with
  | none => .absent
  | some spu =>
    match amt with
    | .finite q => tdSub now (q * spu)
    | _ => .raised

/-- Lines 95-115 on the whitespace-split token list. -/
def ageFromParts (now : ℚ) : List (List Char) → AgeResult
  | [] => .absent
  | p0 :: rest =>
    match tokenAmount p0 with
    | none => .absent
    | some amt => ageWithAmount now amt rest

/-- `parse_age_text` (lines 88-115) on a character list, with the reference
time `now` (the `datetime.utcnow()` read at line 90) as a parameter, in
seconds on the naive timeline. -/
def parseAgeList (now : ℚ) (l : List Char) : AgeResult :=
  if ageTextOf l = [] then .absent
  else if ageTextOf l = "just now".data ∨ ageTextOf l = "moments ago".data then .time now
  else ageFromParts now (splitWs (ageTextOf l))

/-- `parse_age_text` (lines 88-115). -/
def parse_age_text (now : ℚ) (s : String) : AgeResult := parseAgeList now s.data

/-- Permalink resolution (lines 180-183): a root-relative href is prefixed
with the fixed origin, any other href is used as-is. -/
def resolve_post_url (href : List Char) : List Char :=
  if href.head? = some '/' then "https://www.reddit.com".data ++ href else href

/-- The text after the first occurrence of `pat` in `l` (`none` if absent). -/
def afterFirst (pat : List Char) : List Char → Option (List Char)
  | [] => if pat.isPrefixOf [] then some [] else none
  | c :: rest =>
    if pat.isPrefixOf (c :: rest) then some ((c :: rest).drop pat.length)
    else afterFirst pat rest

/-- `post_id` derivation (lines 185-190): when `"/comments/"` occurs in the
URL, Python takes `post_url.split("/comments/")[1].split("/")[0]`; since the
marker itself starts with `'/'`, that chunk equals the text after the first
marker truncated at the first `'/'`.  When the marker is absent, `post_id`
keeps its initializer `"unknown"` (the `except IndexError` fallback to the
full URL is unreachable: `[1]` exists whenever the marker occurs). -/
def derive_post_id (post_url : List Char) : List Char :=
  match afterFirst "/comments/".data post_url with
  | some tail => tail.takeWhile (fun c => c ≠ '/')
  | none => "unknown".data

/-- `POST_MAX_AGE_HOURS` (line 20). -/
def POST_MAX_AGE_HOURS : ℕ := 4

/-- The `time` element inside the timestamp anchor, with its `datetime`
attribute (`none` = element absent; `some none` = attribute absent). -/
structure TsAnchor where
  timeAttr : Option (Option (List Char))
  innerText : List Char
deriving DecidableEq

/-- One candidate post element of the rendered page, reduced to the four DOM
reads the extractor performs (`none` = the selector matched nothing). -/
structure PostElem where
  titleEl : Option (List Char)
  tsAnchor : Option TsAnchor
  permalinkHref : Option (Option (List Char))
  scoreText : Option (List Char)
deriving DecidableEq

/-- The record handed to `insert_reddit_post` at line 199. -/
structure PostRecord where
  subreddit : List Char
  post_id : List Char
  post_url : List Char
  score : ℤ
  created_at : ℚ
deriving DecidableEq

/-- Outcome of processing one candidate post (lines 136-200): the `continue`
paths, an exception escaping to the per-forum handler, or an emitted record. -/
inductive PostOutcome where
  | skipTitle
  | skipTimestamp
  | skipTooOld
  | skipPermalink
  | errored
  | emit (r : PostRecord)
deriving DecidableEq

/-- Creation-time determination (lines 144-159): prefer the `datetime`
attribute of the `time` element (parsed by `datetime.fromisoformat` after
replacing `"Z"` with `"+00:00"` — modelled by the oracle `isoParse`, whose
result is the naive timestamp after the `.replace(tzinfo=None)` strip);
fall back to the anchor's relative-age text. -/
def attrTime (isoParse : List Char → Option ℚ) : Option (Option (List Char)) → Option ℚ
  | some (some ds) => isoParse (replaceSub "Z".data "+00:00".data ds)
  | _ => none

/-- See the doc comment above `attrTime`: the attribute value when the
`time` element, its attribute and the ISO parse all succeed. -/
def createdOf (now : ℚ) (isoParse : List Char → Option ℚ) (p : PostElem) : AgeResult :=
  match p.tsAnchor with
  | none => .absent
  | some a =>
    match attrTime isoParse a.timeAttr with
    | some v => .time v
    | none => parseAgeList now (stripList a.innerText)

/-- The per-post body of `scrape_subreddit` (lines 136-200): title check,
creation-time determination, staleness filter, permalink resolution, id
derivation, score parsing, record assembly. -/
def processPost (now : ℚ) (isoParse : List Char → Option ℚ)
    (subreddit : List Char) (p : PostElem) : PostOutcome :=
  match p.titleEl with
  | none => .skipTitle
  | some rawTitle =>
    if stripList rawTitle = [] then .skipTitle
    else
      match createdOf now isoParse p with
      | .raised => .errored
      | .absent => .skipTimestamp
      | .time v =>
        if (now - v) / 3600 > (POST_MAX_AGE_HOURS : ℚ) then .skipTooOld
        else
          match p.permalinkHref with
          | none => .skipPermalink
          | some none => .skipPermalink
          | some (some href) =>
            if href = [] then .skipPermalink
            else
              match p.scoreText with
              | none =>
                .emit ⟨subreddit, derive_post_id (resolve_post_url href),
                  resolve_post_url href, 0, v⟩
              | some st =>
                match parseScoreList (stripList st) with
                | .ok n =>
                  .emit ⟨subreddit, derive_post_id (resolve_post_url href),
                    resolve_post_url href, n, v⟩
                | .overflow => .errored

/-- One row of the `reddit_posts` table. -/
structure Row where
  subreddit : List Char
  post_id : List Char
  post_url : List Char
  score : ℤ
  created_at : ℚ
  seen_at : ℚ
  commented : Bool
deriving DecidableEq

/-- `insert_reddit_post` (lines 55-69): the statement
`INSERT ... VALUES (..., NOW(), FALSE) ON CONFLICT (post_id) DO NOTHING`
translated over a list-of-rows store; `dbNow` is the database clock `NOW()`. -/
def insert_reddit_post (db : List Row) (dbNow : ℚ) (subreddit post_id post_url : List Char)
    (score : ℤ) (created_at : ℚ) : List Row :=
  if db.any (fun r => r.post_id = post_id) then db
  else db ++ [⟨subreddit, post_id, post_url, score, created_at, dbNow, false⟩]

/-- `BATCH_MIN` (line 11). -/
def BATCH_MIN : ℕ := 13

/-- `BATCH_MAX` (line 12). -/
def BATCH_MAX : ℕ := 31

/-- `SUBREDDITS` (lines 23-30). -/
def SUBREDDITS : List String :=
  ["GirlsWithGuns", "CountryGirls", "CamoGirls", "TacticalGirls", "Outdoors", "Bushcraft"]

/-- `random.sample(l, k)` given the distinct indices the generator chose:
the first `k` of `idxs`, read off `l`. -/
def pySample (l : List String) (k : ℕ) (idxs : List ℕ) : List String :=
  (idxs.take k).map fun i => l.getD i ""

/-- Body of `get_subreddits_for_this_loop` (lines 210-215) over an arbitrary
forum list; `r` is the result of `random.randint(BATCH_MIN, BATCH_MAX)` and
`idxs` the index choice of `random.sample`. -/
def get_subreddits_core (subs : List String) (r : ℕ) (idxs : List ℕ) : List String :=
  if subs = [] then [] else pySample subs (min subs.length r) idxs

/-- `get_subreddits_for_this_loop` (lines 210-215). -/
def get_subreddits_for_this_loop (r : ℕ) (idxs : List ℕ) : List String :=
  get_subreddits_core SUBREDDITS r idxs

example : parse_score_text "" = .ok 0 := by decide
example : parse_score_text "1.2k" = .ok 1200 := by decide
example : parse_score_text "4 points" = .ok 4 := by decide
example : parse_score_text "-5" = .ok (-5) := by decide
example : parse_score_text "inf" = .overflow := by decide
example : parse_score_text "nan" = .ok 0 := by decide
example : parse_score_text "•" = .ok 0 := by decide
example : parse_score_text "2.3k" = .ok 2300 := by decide
example : parse_score_text "abc" = .ok 0 := by decide
example : parse_score_text " 12 votes " = .ok 12 := by decide
example : parse_score_text "3e2" = .ok 300 := by decide

example : parse_age_text 1000 "just now" = .time 1000 := by decide
example : parse_age_text 1000 "5 minutes" = .time 700 := by decide
example : parse_age_text 1000 "gibberish" = .absent := by decide
example : parse_age_text 1000 "an hour" = .time (1000 - 3600) := by decide
example : parse_age_text 10000 "1.5 hours" = .time (10000 - 5400) := by decide
example : parse_age_text 1000 "30 sec ago" = .time 970 := by decide
example : parse_age_text 1000 "5" = .absent := by decide
example : parse_age_text 1000 "5 days" = .absent := by decide
example : parse_age_text 1000 "inf minutes" = .raised := by decide
example : parse_age_text 1000 "0.0000001 seconds" = .time 1000 := by decide
example : parse_age_text 1000 "0.0000015 seconds" = .time (1000 - 2/1000000) := by decide
example : parse_age_text 0 "2000000000000000 hours" = .raised := by decide
example : parse_age_text 1000 "" = .absent := by decide
example : parse_age_text 1000 "moments ago" = .time 1000 := by decide

example :
    resolve_post_url "/r/x/comments/abc123/title/".data =
      "https://www.reddit.com/r/x/comments/abc123/title/".data := by decide
example :
    derive_post_id "https://www.reddit.com/r/x/comments/abc123/title/".data =
      "abc123".data := by decide
example : derive_post_id "https://example.com/post".data = "unknown".data := by decide
example : derive_post_id "a/comments//comments/B".data = "".data := by decide

example :
    processPost 0 (fun _ => none) "s".data
      ⟨some "t".data, some ⟨none, "just now".data⟩, some (some "https://e.x/p".data), none⟩ =
      .emit ⟨"s".data, "unknown".data, "https://e.x/p".data, 0, 0⟩ := by decide

example :
    processPost 14400 (fun _ => none) "s".data
      ⟨some "t".data, some ⟨none, "4 hours".data⟩, some (some "/r/s/comments/id9/t/".data), some "2.3k".data⟩ =
      .emit ⟨"s".data, "id9".data, "https://www.reddit.com/r/s/comments/id9/t/".data, 2300, 0⟩ := by
  decide

example :
    processPost 14400 (fun _ => none) "s".data
      ⟨some "t".data, some ⟨none, "5 hours".data⟩, some (some "/r/s/comments/id9/t/".data), none⟩ =
      .skipTooOld := by decide

example :
    processPost 0 (fun l => if l = "2024+00:00".data then some 77 else none) "s".data
      ⟨some "t".data, some ⟨some (some "2024Z".data), "x".data⟩, some (some "/r/s/comments/a/".data), none⟩ =
      .emit ⟨"s".data, "a".data, "https://www.reddit.com/r/s/comments/a/".data, 0, 77⟩ := by decide

example :
    insert_reddit_post [] 5 "s".data "p1".data "u".data 3 1 =
      [⟨"s".data, "p1".data, "u".data, 3, 1, 5, false⟩] := by decide

example :
    insert_reddit_post [⟨"s".data, "p1".data, "u".data, 3, 1, 5, false⟩] 9
        "s2".data "p1".data "u2".data 4 2 =
      [⟨"s".data, "p1".data, "u".data, 3, 1, 5, false⟩] := by decide

example : get_subreddits_for_this_loop 20 [0, 1, 2, 3, 4, 5] = SUBREDDITS := by decide
example : get_subreddits_core [] 20 [0] = [] := by decide

/-! ### Helper lemmas -/

theorem mem_replaceSubAux_nil {x : Char} {pat : List Char} :
    ∀ {fuel : ℕ} {s : List Char}, x ∈ replaceSubAux pat [] fuel s → x ∈ s := by
  intro fuel
  induction fuel with
  | zero => intro s h; simpa [replaceSubAux] using h
  | succ n ih =>
    intro s h
    cases s with
    | nil => simp [replaceSubAux] at h
    | cons c rest =>
      rw [replaceSubAux] at h
      split at h
      · rw [List.nil_append] at h
        exact List.mem_of_mem_drop (ih h)
      · rcases List.mem_cons.mp h with h1 | h2
        · exact h1 ▸ List.mem_cons_self c rest
        · exact List.mem_cons_of_mem c (ih h2)

theorem mem_removeSub {x : Char} {pat s : List Char} (h : x ∈ removeSub pat s) : x ∈ s :=
  mem_replaceSubAux_nil h

theorem mem_stripList {x : Char} {l : List Char} (h : x ∈ stripList l) : x ∈ l := by
  unfold stripList at h
  rw [List.mem_reverse] at h
  have h2 := (List.dropWhile_sublist isSpace).subset h
  rw [List.mem_reverse] at h2
  exact (List.dropWhile_sublist isSpace).subset h2

theorem toLower_dash {c : Char} (h : c.toLower = '-') : c = '-' := by
  simp only [Char.toLower] at h
  split at h
  · exfalso
    rename_i hc
    obtain ⟨h1, h2⟩ := hc
    set m := c.toNat with hm
    interval_cases m <;> exact absurd h (by decide)
  · exact h

theorem dash_not_mem_pyLower {l : List Char} (h : '-' ∉ l) : '-' ∉ pyLower l := by
  intro hm
  rcases List.mem_map.mp hm with ⟨c, hc, hlc⟩
  exact h (toLower_dash hlc ▸ hc)

theorem dash_not_mem_cleanScoreText {l : List Char} (h : '-' ∉ l) :
    '-' ∉ cleanScoreText l := by
  intro hm
  unfold cleanScoreText at hm
  have h1 := mem_stripList hm
  have h2 := mem_removeSub (mem_removeSub (mem_removeSub (mem_removeSub h1)))
  exact dash_not_mem_pyLower (fun hx => h (mem_stripList hx)) h2

theorem parseMantissa_nonneg {l : List Char} {q : ℚ} (h : parseMantissa l = some q) :
    0 ≤ q := by
  unfold parseMantissa at h
  split at h
  · split at h
    · rw [Option.some_inj] at h
      rw [← h]
      positivity
    · exact absurd h (by simp)
  · split at h
    · rw [Option.some_inj] at h
      rw [← h]
      positivity
    · exact absurd h (by simp)

theorem splitSign_fst_false {t : List Char} (h : '-' ∉ t) : (splitSign t).1 = false := by
  cases t with
  | nil => rfl
  | cons c r =>
    have hc : c ≠ '-' := fun hc => h (hc ▸ List.mem_cons_self c r)
    by_cases hp : c = '+'
    · simp [splitSign, hp]
    · simp [splitSign, hp, hc]

theorem pyFloatCore_nonneg {body : List Char} {q : ℚ}
    (h : pyFloatCore false body = some (.finite q)) : 0 ≤ q := by
  unfold pyFloatCore at h
  split at h
  · exact absurd h (by simp)
  · split at h
    · exact absurd h (by simp)
    · split at h
      · rename_i m heq
        rcases Option.map_eq_some'.mp h with ⟨qm, hqm, hfin⟩
        have hq : q = qm := by
          simpa using hfin.symm
        exact hq ▸ parseMantissa_nonneg hqm
      · rename_i m es heq
        split at h
        · rename_i qm ex hqm hex
          rw [Option.some_inj] at h
          have hq : q = qm * (10 : ℚ) ^ ex := by
            simpa using h.symm
          have h10 : (0 : ℚ) < (10 : ℚ) ^ ex := zpow_pos (by norm_num) ex
          exact hq ▸ mul_nonneg (parseMantissa_nonneg hqm) h10.le
        · exact absurd h (by simp)

theorem pyFloatParse_nonneg {l : List Char} {q : ℚ} (hd : '-' ∉ l)
    (h : pyFloatParse l = some (.finite q)) : 0 ≤ q := by
  unfold pyFloatParse at h
  have hdt : '-' ∉ pyLower (stripList l) :=
    dash_not_mem_pyLower (fun hx => hd (mem_stripList hx))
  have hneg := splitSign_fst_false hdt
  rw [hneg] at h
  exact pyFloatCore_nonneg h

theorem pyTrunc_nonneg {q : ℚ} (h : 0 ≤ q) : 0 ≤ pyTrunc q :=
  Int.tdiv_nonneg (Rat.num_nonneg.mpr h) (Int.natCast_nonneg q.den)

theorem unitSeconds_pos {u : List Char} {spu : ℚ} (h : unitSeconds u = some spu) :
    0 < spu := by
  unfold unitSeconds at h
  split at h
  · rw [Option.some_inj] at h; rw [← h]; norm_num
  · split at h
    · rw [Option.some_inj] at h; rw [← h]; norm_num
    · split at h
      · rw [Option.some_inj] at h; rw [← h]; norm_num
      · exact absurd h (by simp)

theorem ratFloor_eq_intFloor (q : ℚ) : Rat.floor q = ⌊q⌋ :=
  (Rat.floor_def' q).trans Rat.floor_def.symm

theorem roundHalfEven_mem (q : ℚ) :
    roundHalfEven q = Rat.floor q ∨ roundHalfEven q = Rat.floor q + 1 := by
  unfold roundHalfEven
  split_ifs <;> simp

theorem roundHalfEven_nonneg {q : ℚ} (h : 0 ≤ q) : 0 ≤ roundHalfEven q := by
  have hf : 0 ≤ Rat.floor q := by
    rw [ratFloor_eq_intFloor]
    exact Int.floor_nonneg.mpr h
  rcases roundHalfEven_mem q with h1 | h1 <;> omega

theorem one_le_roundHalfEven {q : ℚ} (h : 1 ≤ q) : 1 ≤ roundHalfEven q := by
  have hf : 1 ≤ Rat.floor q := by
    rw [ratFloor_eq_intFloor]
    exact Int.le_floor.mpr (by exact_mod_cast h)
  rcases roundHalfEven_mem q with h1 | h1 <;> omega

theorem scoreOfParsed_nonneg {base : List Char} {mult : ℚ} {n : ℤ}
    (hd : '-' ∉ base) (hm : 0 ≤ mult)
    (h : scoreOfParsed (pyFloatParse base) mult = .ok n) : 0 ≤ n := by
  unfold scoreOfParsed at h
  split at h
  · rename_i q heq
    injection h with h2
    rw [← h2]
    exact pyTrunc_nonneg (mul_nonneg (pyFloatParse_nonneg hd heq) hm)
  · exact absurd h (by simp)
  · exact absurd h (by simp)
  · injection h with h2; omega
  · injection h with h2; omega

theorem afterFirst_eq_none {pat l : List Char} (h : containsSub pat l = false) :
    afterFirst pat l = none := by
  induction l with
  | nil =>
    unfold containsSub at h
    simp [afterFirst, h]
  | cons c rest ih =>
    unfold containsSub at h
    rw [Bool.or_eq_false_iff] at h
    obtain ⟨h1, h2⟩ := h
    unfold afterFirst
    rw [if_neg (by simp [h1])]
    exact ih h2

/-! ### Claims -/

/-- C1 (amended): the score parser is sign-preserving rather than
unconditionally non-negative: for every input string in which no minus sign
occurs, whenever `parse_score_text` returns an integer that integer is
non-negative; and `parse_score_text "" = 0`, `parse_score_text "1.2k" = 1200`,
`parse_score_text "4 points" = 4`.  (Unconditional non-negativity fails: see
the counterexample `parse_score_text "-5" = -5`.) -/
theorem parse_score_nonneg_no_minus :
    (∀ (t : String) (n : ℤ), '-' ∉ t.data → parse_score_text t = .ok n → 0 ≤ n)
    ∧ parse_score_text "" = .ok 0
    ∧ parse_score_text "1.2k" = .ok 1200
    ∧ parse_score_text "4 points" = .ok 4 := by
  refine ⟨?_, by decide, by decide, by decide⟩
  intro t n hd h
  have hdc : '-' ∉ cleanScoreText t.data := dash_not_mem_cleanScoreText hd
  unfold parse_score_text parseScoreList at h
  split at h
  · injection h with h2; omega
  · split at h
    · exact scoreOfParsed_nonneg
        (fun hm => hdc ((List.dropLast_sublist _).subset hm)) (by norm_num) h
    · exact scoreOfParsed_nonneg hdc (by norm_num) h

/-- C1 counterexample: `parse_score_text "-5"` returns the negative integer
`-5`, refuting the claim that every input yields a non-negative integer. -/
theorem parse_score_negative_counterexample :
    parse_score_text "-5" = .ok (-5) ∧ (-5 : ℤ) < 0 :=
  ⟨by decide, by decide⟩

/-- C1 witness: the amended theorem applied at `"4 points"`. -/
theorem parse_score_nonneg_no_minus_witness : (0 : ℤ) ≤ 4 :=
  parse_score_nonneg_no_minus.1 "4 points" 4 (by decide) (by decide)

/-- C3: `parse_score_text` is not total — on `"inf"` (with or without the
`"k"` suffix) the `int()` call raises an uncaught `OverflowError` (only
`ValueError` is caught), contradicting the spec's "Never throws"; `"nan"`
raises `ValueError` inside the guard and is caught, returning 0. -/
theorem parse_score_inf_overflow :
    parse_score_text "inf" = .overflow
    ∧ parse_score_text "infk" = .overflow
    ∧ parse_score_text "nan" = .ok 0 :=
  ⟨by decide, by decide, by decide⟩

/-- C7: a root-relative permalink href is resolved by prefixing the fixed
origin `https://www.reddit.com`, any other href is used as-is, and the href
`"/r/x/comments/abc123/title/"` resolves to the absolute URL on that origin
and yields `post_id = "abc123"`. -/
theorem resolve_post_url_claims :
    (∀ href : List Char, href.head? = some '/' →
        resolve_post_url href = "https://www.reddit.com".data ++ href)
    ∧ (∀ href : List Char, href.head? ≠ some '/' → resolve_post_url href = href)
    ∧ resolve_post_url "/r/x/comments/abc123/title/".data =
        "https://www.reddit.com/r/x/comments/abc123/title/".data
    ∧ derive_post_id (resolve_post_url "/r/x/comments/abc123/title/".data) =
        "abc123".data := by
  refine ⟨?_, ?_, by decide, by decide⟩
  · intro href hh
    unfold resolve_post_url
    rw [if_pos hh]
  · intro href hh
    unfold resolve_post_url
    rw [if_neg hh]

/-- C7 witness: the theorem's first conjunct applied at a concrete href. -/
theorem resolve_post_url_claims_witness :
    resolve_post_url "/a".data = "https://www.reddit.com".data ++ "/a".data :=
  resolve_post_url_claims.1 "/a".data (by decide)

/-- C2 (amended): when the comments-path marker is absent from the post URL,
`post_id` is the fixed placeholder `"unknown"` — not the full post URL (the
full-URL fallback sits behind an unreachable `IndexError`); and the id
derivation never causes a post to be skipped: a post that passes the title,
timestamp, staleness and permalink checks is emitted, with `post_id` derived
from its resolved URL. -/
theorem derive_post_id_unknown_fallback :
    (∀ url : List Char, containsSub "/comments/".data url = false →
        derive_post_id url = "unknown".data)
    ∧ (∀ (now : ℚ) (isoParse : List Char → Option ℚ) (sub : List Char) (p : PostElem)
        (rawTitle href : List Char) (v : ℚ),
        p.titleEl = some rawTitle → stripList rawTitle ≠ [] →
        createdOf now isoParse p = .time v →
        (now - v) / 3600 ≤ (POST_MAX_AGE_HOURS : ℚ) →
        p.permalinkHref = some (some href) → href ≠ [] → p.scoreText = none →
        processPost now isoParse sub p =
          .emit ⟨sub, derive_post_id (resolve_post_url href),
            resolve_post_url href, 0, v⟩) := by
  constructor
  · intro url h
    unfold derive_post_id
    rw [afterFirst_eq_none h]
  · intro now isoParse sub p rawTitle href v ht hts hc ha hp hh hs
    unfold processPost
    rw [ht, hc, hp, hs]
    simp only [if_neg hts, if_neg (not_lt.mpr ha), if_neg hh]

/-- C2 counterexample: a post whose URL lacks the comments-path marker is
emitted with `post_id = "unknown"`, which is not the full post URL as the
claim states. -/
theorem processPost_unknown_id_counterexample :
    processPost 0 (fun _ => none) "s".data
        ⟨some "t".data, some ⟨none, "just now".data⟩,
          some (some "https://e.x/p".data), none⟩ =
      .emit ⟨"s".data, "unknown".data, "https://e.x/p".data, 0, 0⟩
    ∧ "unknown".data ≠ "https://e.x/p".data :=
  ⟨by decide, by decide⟩

/-- C2 witness: the amended theorem's second conjunct applied at a concrete
post element. -/
theorem derive_post_id_unknown_fallback_witness :
    processPost 0 (fun _ => none) "w".data
        ⟨some "t".data, some ⟨none, "just now".data⟩,
          some (some "/r/w/comments/zz/t/".data), none⟩ =
      .emit ⟨"w".data, derive_post_id (resolve_post_url "/r/w/comments/zz/t/".data),
        resolve_post_url "/r/w/comments/zz/t/".data, 0, 0⟩ :=
  derive_post_id_unknown_fallback.2 0 (fun _ => none) "w".data
    ⟨some "t".data, some ⟨none, "just now".data⟩,
      some (some "/r/w/comments/zz/t/".data), none⟩
    "t".data "/r/w/comments/zz/t/".data 0
    (by decide) (by decide) (by decide) (by decide) (by decide) (by decide) (by decide)

/-- C8: `insert_reddit_post` is idempotent on `post_id`: a first insert into a
store with no row of that id appends exactly one row carrying the insert-time
`created_at`/`seen_at`, and a second insert with the same `post_id` (any other
values) is a no-op, leaving exactly that one row for the id unchanged. -/
theorem insert_reddit_post_idempotent :
    ∀ (db : List Row) (n1 n2 : ℚ) (sub pid url sub2 url2 : List Char) (sc sc2 : ℤ)
      (cr cr2 : ℚ),
      (∀ r0 ∈ db, r0.post_id ≠ pid) →
      insert_reddit_post db n1 sub pid url sc cr =
        db ++ [⟨sub, pid, url, sc, cr, n1, false⟩]
      ∧ insert_reddit_post (db ++ [⟨sub, pid, url, sc, cr, n1, false⟩]) n2
          sub2 pid url2 sc2 cr2 = db ++ [⟨sub, pid, url, sc, cr, n1, false⟩]
      ∧ (db ++ [(⟨sub, pid, url, sc, cr, n1, false⟩ : Row)]).filter
          (fun r0 => r0.post_id = pid) =
        ([⟨sub, pid, url, sc, cr, n1, false⟩] : List Row) := by
  intro db n1 n2 sub pid url sub2 url2 sc sc2 cr cr2 h
  have hany : db.any (fun r0 => r0.post_id = pid) = false := by
    rw [List.any_eq_false]
    intro r0 hr0
    simpa using h r0 hr0
  refine ⟨?_, ?_, ?_⟩
  · unfold insert_reddit_post
    simp [hany]
  · unfold insert_reddit_post
    rw [if_pos]
    simp
  · rw [List.filter_append]
    have h1 : db.filter (fun r0 => r0.post_id = pid) = [] := by
      rw [List.filter_eq_nil_iff]
      intro a ha
      simpa using h a ha
    rw [h1]
    simp

/-- C8 witness: the theorem applied at an empty store and concrete values. -/
theorem insert_reddit_post_idempotent_witness :
    insert_reddit_post [] 5 "s".data "p1".data "u".data 3 1 =
      ([] : List Row) ++ [⟨"s".data, "p1".data, "u".data, 3, 1, 5, false⟩]
    ∧ insert_reddit_post (([] : List Row) ++ [⟨"s".data, "p1".data, "u".data, 3, 1, 5, false⟩]) 9
        "s2".data "p1".data "u2".data 4 2 =
      [] ++ [⟨"s".data, "p1".data, "u".data, 3, 1, 5, false⟩]
    ∧ (([] : List Row) ++ [(⟨"s".data, "p1".data, "u".data, 3, 1, 5, false⟩ : Row)]).filter
        (fun r0 => r0.post_id = "p1".data) =
      ([⟨"s".data, "p1".data, "u".data, 3, 1, 5, false⟩] : List Row) :=
  insert_reddit_post_idempotent [] 5 9 "s".data "p1".data "u".data "s2".data "u2".data
    3 4 1 2 (by simp)

/-- C4 (amended): whenever the age text's first token carries a positive
finite magnitude and the parse succeeds with a time, that time is at most the
reference time, and strictly below it as soon as the elapsed duration is at
least one microsecond (`timedelta` keeps whole microseconds only, so a
sub-half-microsecond positive magnitude quantizes to zero and returns exactly
the reference time — see the counterexample); moreover
`parse_age_text now "just now" = now`,
`parse_age_text now "5 minutes" = now - 300` (five minutes of seconds), and
`parse_age_text now "gibberish"` signals absence. -/
theorem parse_age_text_claims :
    (∀ (now : ℚ) (s : String) (p0 : List Char) (rest : List (List Char)) (q t spu : ℚ),
        splitWs (ageTextOf s.data) = p0 :: rest →
        tokenAmount p0 = some (.finite q) → 0 < q →
        unitSeconds (unitToken rest) = some spu →
        parse_age_text now s = .time t →
        t ≤ now ∧ ((1 : ℚ)/1000000 ≤ q * spu → t < now))
    ∧ (∀ now : ℚ, parse_age_text now "just now" = .time now)
    ∧ (∀ now : ℚ, parse_age_text now "5 minutes" = .time (now - 300))
    ∧ (∀ now : ℚ, parse_age_text now "gibberish" = .absent) := by
  refine ⟨?_, fun now => rfl, ?_, fun now => rfl⟩
  · intro now s p0 rest q t spu hsplit hamt hq hspu h
    unfold parse_age_text parseAgeList at h
    split at h
    · exact absurd h (by simp)
    · split at h
      · rename_i hphrase
        exfalso
        rcases hphrase with h1 | h1
        · rw [h1] at hsplit
          rw [show splitWs ("just now".data) = ["just".data, "now".data] from by decide]
            at hsplit
          injection hsplit with e1 e2
          rw [← e1] at hamt
          rw [show tokenAmount "just".data = none from by decide] at hamt
          exact absurd hamt (by simp)
        · rw [h1] at hsplit
          rw [show splitWs ("moments ago".data) = ["moments".data, "ago".data] from by decide]
            at hsplit
          injection hsplit with e1 e2
          rw [← e1] at hamt
          rw [show tokenAmount "moments".data = none from by decide] at hamt
          exact absurd hamt (by simp)
      · rw [hsplit] at h
        have key : ageFromParts now (p0 :: rest) = ageWithAmount now (.finite q) rest := by
          simp only [ageFromParts]
          rw [hamt]
        rw [key] at h
        unfold ageWithAmount at h
        rw [hspu] at h
        have h2 : tdSub now (q * spu) = AgeResult.time t := h
        unfold tdSub at h2
        split at h2
        · exact absurd h2 (by simp)
        · have h3 : now - (tdMicros (q * spu) : ℚ) / 1000000 = t := AgeResult.time.inj h2
          have hspu0 : 0 < spu := unitSeconds_pos hspu
          have hprod : (0 : ℚ) ≤ q * spu * 1000000 :=
            mul_nonneg (mul_nonneg hq.le hspu0.le) (by norm_num)
          have hmu : 0 ≤ tdMicros (q * spu) := roundHalfEven_nonneg hprod
          constructor
          · rw [← h3]
            have hd : (0 : ℚ) ≤ (tdMicros (q * spu) : ℚ) / 1000000 :=
              div_nonneg (by exact_mod_cast hmu) (by norm_num)
            linarith
          · intro hbig
            rw [← h3]
            have h1le : (1 : ℚ) ≤ q * spu * 1000000 := by linarith
            have hmu1 : 1 ≤ tdMicros (q * spu) := one_le_roundHalfEven h1le
            have hd : (0 : ℚ) < (tdMicros (q * spu) : ℚ) / 1000000 := by
              apply div_pos _ (by norm_num)
              exact_mod_cast lt_of_lt_of_le Int.zero_lt_one hmu1
            linarith
  · intro now
    have h : parse_age_text now "5 minutes" =
        .time (now - (tdMicros ((digitsToNat "5".data : ℚ) * 60) : ℚ) / 1000000) := rfl
    rw [h, show tdMicros ((digitsToNat "5".data : ℚ) * 60) = 300000000 from by decide]
    norm_num

/-- C4 counterexample: `"0.0000001 seconds"` is a well-formed relative-age
text with the positive magnitude `10⁻⁷`, yet `timedelta(seconds=1e-07)`
quantizes to zero microseconds, so the parse returns exactly the reference
time — not a timestamp strictly less than it. -/
theorem parse_age_subMicrosecond_counterexample :
    parse_age_text 0 "0.0000001 seconds" = .time 0
    ∧ tokenAmount "0.0000001".data = some (.finite (1/10000000))
    ∧ (0 : ℚ) < 1/10000000
    ∧ ¬ ((0 : ℚ) < 0) :=
  ⟨by decide, by decide, by decide, by decide⟩

/-- C4 witness: the theorem's first conjunct applied at `"5 minutes"` with
reference time 0. -/
theorem parse_age_text_claims_witness :
    (-300 : ℚ) ≤ 0 ∧ ((1 : ℚ)/1000000 ≤ 5 * 60 → (-300 : ℚ) < 0) :=
  parse_age_text_claims.1 0 "5 minutes" "5".data ["minutes".data] 5 (-300) 60
    (by decide) (by decide) (by decide) (by decide) (by decide)

/-- C5: the magnitude token `"a"`/`"an"` means 1 and any other magnitude goes
through the decimal `float` parse; the unit token maps, in the code's order,
by substring/exact match — containing `"min"` → minutes, else containing
`"hour"` or exactly `"h"` → hours, else containing `"sec"` or exactly `"s"` →
seconds, else absence; and a missing unit or an unparseable magnitude makes
`parse_age_text` signal absence. -/
theorem parse_age_token_rules :
    tokenAmount "a".data = some (.finite 1)
    ∧ tokenAmount "an".data = some (.finite 1)
    ∧ (∀ p0 : List Char, p0 ≠ "a".data → p0 ≠ "an".data →
        tokenAmount p0 = pyFloatParse p0)
    ∧ (∀ u : List Char, containsSub "min".data u = true → unitSeconds u = some 60)
    ∧ (∀ u : List Char, containsSub "min".data u = false →
        containsSub "hour".data u = true ∨ u = "h".data → unitSeconds u = some 3600)
    ∧ (∀ u : List Char, containsSub "min".data u = false →
        containsSub "hour".data u = false → u ≠ "h".data →
        containsSub "sec".data u = true ∨ u = "s".data → unitSeconds u = some 1)
    ∧ (∀ u : List Char, containsSub "min".data u = false →
        containsSub "hour".data u = false → u ≠ "h".data →
        containsSub "sec".data u = false → u ≠ "s".data → unitSeconds u = none)
    ∧ (∀ (now : ℚ) (s : String) (p0 : List Char) (rest : List (List Char)),
        ageTextOf s.data ≠ [] → ageTextOf s.data ≠ "just now".data →
        ageTextOf s.data ≠ "moments ago".data →
        splitWs (ageTextOf s.data) = p0 :: rest →
        tokenAmount p0 = none → parse_age_text now s = .absent)
    ∧ (∀ (now : ℚ) (s : String) (p0 : List Char),
        ageTextOf s.data ≠ [] → ageTextOf s.data ≠ "just now".data →
        ageTextOf s.data ≠ "moments ago".data →
        splitWs (ageTextOf s.data) = [p0] →
        parse_age_text now s = .absent) := by
  refine ⟨by decide, by decide, ?_, ?_, ?_, ?_, ?_, ?_, ?_⟩
  · intro p0 h1 h2
    unfold tokenAmount
    rw [if_neg (not_or.mpr ⟨h1, h2⟩)]
  · intro u h
    simp [unitSeconds, h]
  · intro u hmin hor
    rcases hor with h1 | h1
    · simp [unitSeconds, hmin, h1]
    · subst h1; decide
  · intro u hmin hhour hneh hor
    rcases hor with h1 | h1
    · simp [unitSeconds, hmin, hhour, hneh, h1]
    · subst h1; decide
  · intro u h1 h2 h3 h4 h5
    simp [unitSeconds, h1, h2, h3, h4, h5]
  · intro now s p0 rest hne hj hm hsplit hamt
    unfold parse_age_text parseAgeList
    rw [if_neg hne, if_neg (not_or.mpr ⟨hj, hm⟩), hsplit]
    simp only [ageFromParts]
    rw [hamt]
  · intro now s p0 hne hj hm hsplit
    unfold parse_age_text parseAgeList
    rw [if_neg hne, if_neg (not_or.mpr ⟨hj, hm⟩), hsplit]
    simp only [ageFromParts]
    cases hamt : tokenAmount p0 with
    | none => rfl
    | some amt =>
      show ageWithAmount now amt [] = AgeResult.absent
      simp only [ageWithAmount]
      rw [show unitSeconds (unitToken ([] : List (List Char))) = none from by decide]

/-- C5 witness: the third conjunct applied at the token `"5"`, and the unit
rules applied at `"minutes"`. -/
theorem parse_age_token_rules_witness :
    tokenAmount "5".data = pyFloatParse "5".data
    ∧ unitSeconds "minutes".data = some 60 :=
  ⟨parse_age_token_rules.2.2.1 "5".data (by decide) (by decide),
    parse_age_token_rules.2.2.2.1 "minutes".data (by decide)⟩

/-- C6: a record is emitted (and so passed to the persistence operation) only
when its creation time was determined — from the ISO timestamp attribute or
the relative-age text, i.e. `createdOf` yields a time — and its age relative
to the reference time does not exceed the staleness window
`POST_MAX_AGE_HOURS`, whose configured default is 4 hours. -/
theorem processPost_emit_requires_fresh :
    POST_MAX_AGE_HOURS = 4
    ∧ (∀ (now : ℚ) (isoParse : List Char → Option ℚ) (sub : List Char) (p : PostElem)
        (r0 : PostRecord),
        processPost now isoParse sub p = .emit r0 →
        createdOf now isoParse p = .time r0.created_at
        ∧ (now - r0.created_at) / 3600 ≤ (POST_MAX_AGE_HOURS : ℚ)) := by
  refine ⟨rfl, ?_⟩
  intro now isoParse sub p r0 h
  unfold processPost at h
  split at h
  · exact absurd h (by simp)
  · split at h
    · exact absurd h (by simp)
    · split at h
      · exact absurd h (by simp)
      · exact absurd h (by simp)
      · rename_i v heq
        split at h
        · exact absurd h (by simp)
        · rename_i hage
          split at h
          · exact absurd h (by simp)
          · exact absurd h (by simp)
          · rename_i href
            split at h
            · exact absurd h (by simp)
            · split at h
              · injection h with h2
                rw [← h2]
                exact ⟨heq, not_lt.mp hage⟩
              · split at h
                · injection h with h2
                  rw [← h2]
                  exact ⟨heq, not_lt.mp hage⟩
                · exact absurd h (by simp)

/-- C6 witness: the theorem applied at a concrete emitting post element. -/
theorem processPost_emit_requires_fresh_witness :
    createdOf 0 (fun _ => none)
        ⟨some "t".data, some ⟨none, "just now".data⟩,
          some (some "https://e.x/q".data), none⟩ =
      .time ((⟨"s".data, "unknown".data, "https://e.x/q".data, 0, 0⟩ : PostRecord).created_at)
    ∧ (0 - (⟨"s".data, "unknown".data, "https://e.x/q".data, 0, 0⟩ : PostRecord).created_at)
        / 3600 ≤ (POST_MAX_AGE_HOURS : ℚ) :=
  processPost_emit_requires_fresh.2 0 (fun _ => none) "s".data
    ⟨some "t".data, some ⟨none, "just now".data⟩, some (some "https://e.x/q".data), none⟩
    ⟨"s".data, "unknown".data, "https://e.x/q".data, 0, 0⟩ (by decide)

/-- C10: the staleness boundary is inclusive: with `POST_MAX_AGE_HOURS = 4`,
a post whose age relative to the reference time is exactly the window — i.e.
`(now - created)/3600 = POST_MAX_AGE_HOURS` — is not skipped by the age
check, because the filter skips only on strictly greater age. -/
theorem staleness_boundary_inclusive :
    (POST_MAX_AGE_HOURS : ℚ) = 4
    ∧ (∀ (now : ℚ) (isoParse : List Char → Option ℚ) (sub : List Char) (p : PostElem)
        (v : ℚ),
        createdOf now isoParse p = .time v →
        (now - v) / 3600 = (POST_MAX_AGE_HOURS : ℚ) →
        processPost now isoParse sub p ≠ .skipTooOld) := by
  refine ⟨by norm_num [POST_MAX_AGE_HOURS], ?_⟩
  intro now isoParse sub p v hc hb h
  unfold processPost at h
  split at h
  · exact absurd h (by simp)
  · split at h
    · exact absurd h (by simp)
    · split at h
      · exact absurd h (by simp)
      · exact absurd h (by simp)
      · rename_i v2 heq
        have hv : v2 = v := by
          rw [hc] at heq
          exact (AgeResult.time.inj heq).symm
        subst hv
        split at h
        · rename_i hgt
          rw [hb] at hgt
          exact absurd hgt (lt_irrefl _)
        · repeat' split at h
          all_goals exact absurd h (by simp)

/-- C10 witness: the theorem applied at a concrete post exactly 4 hours
old. -/
theorem staleness_boundary_inclusive_witness :
    processPost 14400 (fun _ => none) "s".data
        ⟨some "t".data, some ⟨none, "4 hours".data⟩,
          some (some "/r/s/comments/id9/t/".data), none⟩ ≠
      .skipTooOld :=
  staleness_boundary_inclusive.2 14400 (fun _ => none) "s".data
    ⟨some "t".data, some ⟨none, "4 hours".data⟩, some (some "/r/s/comments/id9/t/".data), none⟩
    0 (by decide) (by decide)

/-- C9: over a non-empty forum list the SELECTING phase chooses a subset whose
size lies within the configured `[BATCH_MIN, BATCH_MAX]` range clamped to the
list's length and which contains no duplicate forum names (the hypotheses on
`r` and `idxs` are the documented contracts of `random.randint` and
`random.sample`); over an empty forum list the selection is empty. -/
theorem get_subreddits_selection :
    SUBREDDITS.Nodup
    ∧ (∀ (r : ℕ) (idxs : List ℕ),
        get_subreddits_for_this_loop r idxs = get_subreddits_core SUBREDDITS r idxs)
    ∧ (∀ (r : ℕ) (idxs : List ℕ), get_subreddits_core [] r idxs = [])
    ∧ (∀ (subs : List String) (r : ℕ) (idxs : List ℕ),
        subs ≠ [] → subs.Nodup →
        BATCH_MIN ≤ r → r ≤ BATCH_MAX →
        idxs.Nodup → (∀ i ∈ idxs, i < subs.length) →
        idxs.length = min subs.length r →
        (min subs.length BATCH_MIN ≤ (get_subreddits_core subs r idxs).length
          ∧ (get_subreddits_core subs r idxs).length ≤ min subs.length BATCH_MAX
          ∧ (get_subreddits_core subs r idxs).Nodup)) := by
  refine ⟨by decide, fun r idxs => rfl, fun r idxs => rfl, ?_⟩
  intro subs r idxs hne hnd hrmin hrmax hidx hbound hlen
  have hcore : get_subreddits_core subs r idxs = pySample subs (min subs.length r) idxs := by
    unfold get_subreddits_core
    rw [if_neg hne]
  have hlength : (pySample subs (min subs.length r) idxs).length = min subs.length r := by
    unfold pySample
    rw [List.length_map, List.length_take, hlen]
    exact min_self _
  refine ⟨?_, ?_, ?_⟩
  · rw [hcore, hlength]
    exact min_le_min (le_refl _) hrmin
  · rw [hcore, hlength]
    exact min_le_min (le_refl _) hrmax
  · rw [hcore]
    unfold pySample
    apply List.Nodup.map_on
    · intro x hx y hy hxy
      have hxl : x < subs.length := hbound x (List.mem_of_mem_take hx)
      have hyl : y < subs.length := hbound y (List.mem_of_mem_take hy)
      rw [List.getD_eq_getElem subs "" hxl, List.getD_eq_getElem subs "" hyl] at hxy
      exact (hnd.getElem_inj_iff).mp hxy
    · exact hidx.sublist (List.take_sublist _ _)

/-- C9 witness: the fourth conjunct applied at the repository's forum list
with a concrete batch size and index choice. -/
theorem get_subreddits_selection_witness :
    min SUBREDDITS.length BATCH_MIN ≤
        (get_subreddits_core SUBREDDITS 20 [0, 1, 2, 3, 4, 5]).length
    ∧ (get_subreddits_core SUBREDDITS 20 [0, 1, 2, 3, 4, 5]).length ≤
        min SUBREDDITS.length BATCH_MAX
    ∧ (get_subreddits_core SUBREDDITS 20 [0, 1, 2, 3, 4, 5]).Nodup :=
  get_subreddits_selection.2.2.2 SUBREDDITS 20 [0, 1, 2, 3, 4, 5]
    (by decide) (by decide) (by decide) (by decide) (by decide) (by decide) (by decide)
